import Mathlib

/-!
Shallow embedding of the CCHUB API client (`cchub_api_base_client.py` and
`cchub_api_client.py`): parameter dictionaries, the `_auth` token injection,
the exchange part of `_make_request` in both client classes, the per-model
verb dispatch `model_func`, and the paginated aggregator `get_all`, together
with theorems about their behaviour.
-/

namespace Cchub

/-- A query-parameter value: the Python strings and ints that appear in the
`params` dictionaries handed to the client. -/
inductive Val : Type
  | str : String → Val
  | int : Int → Val
  deriving DecidableEq, Repr

/-- A Python dict of request parameters, as an insertion-ordered association
list (Python dicts preserve insertion order and have unique keys). -/
abbrev Params : Type := List (String × Val)

/-- Dict lookup `d[k]` (first matching key). -/
def getParam : Params → String → Option Val
  | [], _ => none
  | (k', v) :: rest, k => if k' = k then some v else getParam rest k

/-- Dict assignment `d[k] = v`: update an existing key in place (keeping its
position, as Python dicts do) or append a new key at the end. -/
def setParam : Params → String → Val → Params
  | [], k, v => [(k, v)]
  | (k', v') :: rest, k, v =>
    if k' = k then (k, v) :: rest else (k', v') :: setParam rest k v

/-- `CchubApiBaseClient._auth` and `CchubApiClient._auth` (textually identical
in the two classes): if `params` is truthy (a non-empty dict) set
`params['accessToken']` on it, otherwise build a fresh
`{'accessToken': token}` dict. -/
def cchub_auth (token : String) (params : Option Params) : Params :=
  match params with
  | some ps =>
    if ps = [] then [("accessToken", Val.str token)]
    else setParam ps "accessToken" (Val.str token)
  | none => [("accessToken", Val.str token)]

/-- An HTTP response as the `requests` library hands it back: a status code
and a (parsed) body. -/
structure HttpResp (β : Type) where
  status : Nat
  body : β
  deriving DecidableEq, Repr

/-- Outcome of `session.send`: either a response came back (with any status
code), or a `RequestException` was raised (connection error, timeout, ...). -/
inductive SendOutcome (β : Type) : Type
  | resp : HttpResp β → SendOutcome β
  | raised : SendOutcome β
  deriving DecidableEq, Repr

/-- Exchange part of `CchubApiBaseClient._make_request`: the raw response is
returned unchanged whatever its status code; a `RequestException` is caught,
logged, and `None` is returned. -/
def base_make_request {β : Type} (outcome : SendOutcome β) : Option (HttpResp β) :=
  match outcome with
  | SendOutcome.resp r => some r
  | SendOutcome.raised => none

/-- Exchange part of `CchubApiClient._make_request`: `raise_for_status()`
raises an `HTTPError` for status codes in [400, 600); `HTTPError` is a
`RequestException`, so the same handler catches it and returns `None`;
otherwise `response.json()` (the parsed body) is returned. -/
def client_make_request {β : Type} (outcome : SendOutcome β) : Option β :=
  match outcome with
  | SendOutcome.resp r => if 400 ≤ r.status ∧ r.status < 600 then none else some r.body
  | SendOutcome.raised => none

/-- The fixed model catalog `CchubApiBaseClient.models`. -/
def models : List String :=
  ["activities", "activitiesCall", "activitiesEmail", "activitiesWeb", "activitiesSms",
   "activitiesFbm", "activitiesIgdm", "activitiesWap", "activitiesVbr", "accounts",
   "contacts", "crmRecords", "crmDatabases", "campaignsRecords", "campaignsTypes",
   "databases", "groups", "pauses", "queues", "statuses", "templates", "tickets", "users"]

/-- Endpoint construction in `model_func`: `uid = args[0] if args else None`;
a truthy `uid` (a non-empty string) selects the single-record path, anything
falsy selects the collection path. -/
def model_endpoint (versionUrl model : String) (args : List String) : String :=
  match args.head? with
  | some uid =>
    if uid = "" then versionUrl ++ "/" ++ model ++ ".json"
    else versionUrl ++ "/" ++ model ++ "/" ++ uid ++ ".json"
  | none => versionUrl ++ "/" ++ model ++ ".json"

/-- The `verb_dict` lookup in `model_func`: the four known verbs map to the
HTTP method used by the bound helper (`self.get` sends GET, and so on);
anything else is a `KeyError`. -/
def verb_method (verb : String) : Option String :=
  if verb = "get" then some "GET"
  else if verb = "post" then some "POST"
  else if verb = "put" then some "PUT"
  else if verb = "delete" then some "DELETE"
  else none

/-- Python's `str.upper()` on the (ASCII) verb strings, character by
character. -/
def pyUpper (s : String) : String :=
  String.mk (s.data.map Char.toUpper)

/-- What one `model_func` invocation does: either it hands a request to
`_make_request` (HTTP method, endpoint and the `params` keyword argument), or
it raises `KeyError(verb)`. -/
inductive DispatchOutcome : Type
  | issued : String → String → Option Params → DispatchOutcome
  | keyError : String → DispatchOutcome
  deriving DecidableEq, Repr

/-- `CchubApiBaseClient.model_func`: builds the endpoint from `args`, then
either routes through `simulate` (a GET carrying `_method=<VERB>` in its
params) or looks the verb up in `verb_dict`, raising `KeyError` for unknown
verbs. -/
def model_func (versionUrl model verb : String) (args : List String) (simulate : Bool)
    (params : Option Params) : DispatchOutcome :=
  let endpoint := model_endpoint versionUrl model args
  if simulate then
    let ps := match params with
      | some ps =>
        if ps = [] then [("_method", Val.str (pyUpper verb))]
        else setParam ps "_method" (Val.str (pyUpper verb))
      | none => [("_method", Val.str (pyUpper verb))]
    DispatchOutcome.issued "GET" endpoint (some ps)
  else
    match verb_method verb with
    | some m => DispatchOutcome.issued m endpoint params
    | none => DispatchOutcome.keyError verb

/-- The response envelope `{error, result: {data, total}}` of one listing
page, with the body already parsed (`response.json()`). -/
structure Envelope (ρ ε : Type) where
  error : ε
  data : List ρ
  total : Int
  deriving DecidableEq, Repr

/-- A single-page response as `get_all` sees it: the HTTP status code and the
parsed envelope. -/
structure PageResp (ρ ε : Type) where
  status : Nat
  body : Envelope ρ ε
  deriving DecidableEq, Repr

/-- The accumulator `all_data` of `get_all`, flattened: `result.data`,
`result.total`, `error` and `status_code`. -/
structure Agg (ρ ε : Type) where
  data : List ρ
  total : Int
  errors : List ε
  statusCodes : List Nat
  deriving DecidableEq, Repr

/-- Result of a `get_all` call. `ok` carries, besides the returned `all_data`,
the caller's `params` dict after the call (it is mutated in place) and the
parameter snapshots of every page request issued. `attrError` models the
`AttributeError` raised by `response.status_code` when `_make_request`
returned `None`. `fuelOut` means the loop was still running after `fuel`
iterations. `noMethodError` models the `Exception` raised when no getter
exists for the model. -/
inductive GetAllResult (ρ ε : Type) : Type
  | ok : Agg ρ ε → Option Params → List Params → GetAllResult ρ ε
  | attrError : List Params → GetAllResult ρ ε
  | fuelOut : List Params → GetAllResult ρ ε
  | noMethodError : GetAllResult ρ ε
  deriving DecidableEq, Repr

/-- The page-request snapshots recorded in a `GetAllResult`. -/
def resultReqs {ρ ε : Type} : GetAllResult ρ ε → List Params
  | GetAllResult.ok _ _ reqs => reqs
  | GetAllResult.attrError reqs => reqs
  | GetAllResult.fuelOut reqs => reqs
  | GetAllResult.noMethodError => []

/-- The dict `get_all` reads at the top of an iteration: the caller's
`kwargs['params']` when one was passed, otherwise a fresh `{}`. -/
def stepBase (kw : Option Params) : Params :=
  match kw with
  | some ps => ps
  | none => []

/-- The parameter dict at the moment a page request is serialized: `get_all`
sets `skip` and `take`, then `_auth` sets `accessToken` — all in-place
updates of the same dict. -/
def reqParams (ps : Params) (token : String) (position : Nat) : Params :=
  setParam (setParam (setParam ps "skip" (Val.int position)) "take" (Val.int 100))
    "accessToken" (Val.str token)

/-- The caller's `kwargs['params']` binding after an iteration at `position`:
a dict that was passed has been mutated in place; otherwise there is still
none. -/
def stepKw (token : String) (position : Nat) (kw : Option Params) : Option Params :=
  match kw with
  | some ps => some (reqParams ps token position)
  | none => none

/-- One page appended to `all_data`: `status_code`, `error` and `data` are
extended, and `total` is recorded only on the first page (`position == 0`). -/
def pageStep {ρ ε : Type} (agg : Agg ρ ε) (position : Nat) (resp : PageResp ρ ε) : Agg ρ ε :=
  { data := agg.data ++ resp.body.data
    total := if position = 0 then resp.body.total else agg.total
    errors := agg.errors ++ [resp.body.error]
    statusCodes := agg.statusCodes ++ [resp.status] }

/-- The `while True` loop of `get_all`. `oracle` is the single-page getter
`get_<model>` as a function of the `skip` offset it is called with (the only
parameter the loop varies between calls); `none` is the `None` sentinel that
`_make_request` returns on a transport failure. `fuel` bounds the number of
iterations; each theorem supplies enough fuel for its scenario. -/
def getAllLoop {ρ ε : Type} (token : String) (oracle : Nat → Option (PageResp ρ ε)) :
    Nat → Nat → Option Params → Agg ρ ε → List Params → GetAllResult ρ ε
  | 0, _, _, _, reqs => GetAllResult.fuelOut reqs
  | fuel + 1, position, kw, agg, reqs =>
    match oracle position with
    | none => GetAllResult.attrError (reqs ++ [reqParams (stepBase kw) token position])
    | some resp =>
      if resp.status ≠ 200 then
        GetAllResult.ok agg (stepKw token position kw)
          (reqs ++ [reqParams (stepBase kw) token position])
      else if resp.body.total > (position : Int) then
        getAllLoop token oracle fuel (position + 100) (stepKw token position kw)
          (pageStep agg position resp) (reqs ++ [reqParams (stepBase kw) token position])
      else
        GetAllResult.ok (pageStep agg position resp) (stepKw token position kw)
          (reqs ++ [reqParams (stepBase kw) token position])

/-- `CchubApiBaseClient.get_all`: resolve the getter (the catalog is fixed,
so `hasattr(self, 'get_' + model)` is membership in `models`), then run the
paging loop from `position = 0` with an empty accumulator. -/
def get_all {ρ ε : Type} (token model : String) (oracle : Nat → Option (PageResp ρ ε))
    (kw : Option Params) (fuel : Nat) : GetAllResult ρ ε :=
  if model ∈ models then getAllLoop token oracle fuel 0 kw ⟨[], 0, [], []⟩ []
  else GetAllResult.noMethodError

/-- `kwargs['params']` after `m` completed loop iterations starting at
offset `p`. -/
def kwAfter (token : String) : Nat → Nat → Option Params → Option Params
  | _, 0, kw => kw
  | p, m + 1, kw => kwAfter token (p + 100) m (stepKw token p kw)

/-- The request snapshots of `m` loop iterations starting at offset `p`. -/
def reqsAfter (token : String) : Nat → Nat → Option Params → List Params
  | _, 0, _ => []
  | p, m + 1, kw => reqParams (stepBase kw) token p :: reqsAfter token (p + 100) m (stepKw token p kw)

/-- `all_data` after `m` successfully processed pages starting at offset
`p`. -/
def aggAfter {ρ ε : Type} (oracle : Nat → Option (PageResp ρ ε)) : Nat → Nat → Agg ρ ε → Agg ρ ε
  | _, 0, agg => agg
  | p, m + 1, agg =>
    match oracle p with
    | some resp => aggAfter oracle (p + 100) m (pageStep agg p resp)
    | none => aggAfter oracle (p + 100) m agg

/-- The page at offset `p` lets the loop continue: a response is present, its
status is 200, and its reported `total` exceeds `p`. -/
def goodContB {ρ ε : Type} (oracle : Nat → Option (PageResp ρ ε)) (p : Nat) : Bool :=
  match oracle p with
  | some resp => resp.status == 200 && decide ((p : Int) < resp.body.total)
  | none => false

/-- `result.total` as reported on the very first page (0 when there is no
first-page response). -/
def firstReportedTotal {ρ ε : Type} (oracle : Nat → Option (PageResp ρ ε)) : Int :=
  match oracle 0 with
  | some resp => resp.body.total
  | none => 0

/-- The mocked getter of the `total=250` boundary scenario: every page has
status 200 and reports `total = 250`; the records are 0..249, served 100 at a
time from the requested offset, so skips 0/100/200 serve 100/100/50 records
and skip 300 serves none. -/
def oracle250 : Nat → Option (PageResp Nat Nat) :=
  fun skip => some ⟨200, ⟨0, ((List.range 250).drop skip).take 100, 250⟩⟩

/-- A getter whose transport always fails: `_make_request` returns `None`. -/
def oracleDown : Nat → Option (PageResp Nat Nat) :=
  fun _ => none

/-- A getter whose first page is fine (3 records, `total=150`) and whose
second page comes back with HTTP status 500. -/
def oracleErr2 : Nat → Option (PageResp Nat Nat) :=
  fun skip => if skip = 0 then some ⟨200, ⟨7, [1, 2, 3], 150⟩⟩ else some ⟨500, ⟨0, [], 0⟩⟩

/-- A getter whose pages disagree about `total`: page 1 reports 150, page 2
reports 50, later pages report 0. -/
def oracleTotals : Nat → Option (PageResp Nat Nat) :=
  fun skip =>
    if skip = 0 then some ⟨200, ⟨0, [5], 150⟩⟩
    else if skip = 100 then some ⟨200, ⟨0, [6], 50⟩⟩
    else some ⟨200, ⟨0, [], 0⟩⟩

/-- A getter that reports an empty collection: status 200, `total=0`, no
records. -/
def oracleEmpty : Nat → Option (PageResp Nat Nat) :=
  fun _ => some ⟨200, ⟨3, [], 0⟩⟩


/-- Setting a key makes it readable back. -/
theorem getParam_setParam_self (ps : Params) (k : String) (v : Val) :
    getParam (setParam ps k v) k = some v := by
  induction ps with
  | nil => simp [setParam, getParam]
  | cons kv rest ih =>
    obtain ⟨k', v'⟩ := kv
    by_cases h : k' = k
    · subst h; simp [setParam, getParam]
    · simp [setParam, getParam, h, ih]

/-- Setting a key leaves every other key unchanged. -/
theorem getParam_setParam_ne (ps : Params) (k k' : String) (v : Val) (h : k ≠ k') :
    getParam (setParam ps k v) k' = getParam ps k' := by
  induction ps with
  | nil => simp [setParam, getParam, h]
  | cons kv rest ih =>
    obtain ⟨k'', v''⟩ := kv
    by_cases h2 : k'' = k
    · subst h2; simp [setParam, getParam, h]
    · simp [setParam, getParam, h2, ih]

/-- Every serialized page request carries `take = 100`. -/
theorem getParam_reqParams_take (ps : Params) (token : String) (q : Nat) :
    getParam (reqParams ps token q) "take" = some (Val.int 100) := by
  unfold reqParams
  rw [getParam_setParam_ne _ _ _ _ (by decide)]
  exact getParam_setParam_self ..

/-- Every serialized page request carries `skip = position`. -/
theorem getParam_reqParams_skip (ps : Params) (token : String) (q : Nat) :
    getParam (reqParams ps token q) "skip" = some (Val.int q) := by
  unfold reqParams
  rw [getParam_setParam_ne _ _ _ _ (by decide), getParam_setParam_ne _ _ _ _ (by decide)]
  exact getParam_setParam_self ..

/-- Every serialized page request carries the client's access token. -/
theorem getParam_reqParams_token (ps : Params) (token : String) (q : Nat) :
    getParam (reqParams ps token q) "accessToken" = some (Val.str token) := by
  unfold reqParams
  exact getParam_setParam_self ..

/-- Claim C4: for every request sent by the client and every caller-supplied
parameter mapping (including one that already contains an `accessToken`
entry), the outgoing query parameters bind `accessToken` to the client's
configured token — `_auth` is applied after merging caller parameters and
overwrites any caller-supplied value — and every other caller-supplied key
survives unchanged. -/
theorem c4_auth_token_injected (token : String) (params : Option Params) :
    getParam (cchub_auth token params) "accessToken" = some (Val.str token) ∧
    (∀ ps k v, params = some ps → k ≠ "accessToken" → getParam ps k = some v →
      getParam (cchub_auth token params) k = some v) := by
  constructor
  · cases params with
    | none => simp [cchub_auth, getParam]
    | some ps =>
      by_cases h : ps = []
      · simp [cchub_auth, h, getParam]
      · simp [cchub_auth, h, getParam_setParam_self]
  · intro ps k v hps hk hv
    subst hps
    by_cases h : ps = []
    · subst h; simp [getParam] at hv
    · simp only [cchub_auth]
      rw [if_neg h, getParam_setParam_ne _ _ _ _ (Ne.symm hk)]
      exact hv

/-- Witness for C4: a caller-supplied `accessToken` entry is overwritten with
the client's token while the caller's other keys survive. -/
theorem c4_auth_token_injected_w :
    getParam (cchub_auth "tkn" (some [("accessToken", Val.str "evil"), ("take", Val.int 5)]))
        "accessToken" = some (Val.str "tkn") ∧
    getParam (cchub_auth "tkn" (some [("accessToken", Val.str "evil"), ("take", Val.int 5)]))
        "take" = some (Val.int 5) :=
  ⟨(c4_auth_token_injected "tkn" (some [("accessToken", Val.str "evil"), ("take", Val.int 5)])).1,
   (c4_auth_token_injected "tkn" (some [("accessToken", Val.str "evil"), ("take", Val.int 5)])).2
     [("accessToken", Val.str "evil"), ("take", Val.int 5)] "take" (Val.int 5) rfl
     (by decide) (by decide)⟩

/-- Claim C3, counterexample: `CchubApiClient._make_request` does not return a
404 response to the caller — `raise_for_status()` raises an `HTTPError`,
which the `RequestException` handler catches, so the caller receives the
`None` sentinel instead of a response object carrying status 404. -/
theorem c3_client_swallows_404 :
    client_make_request (SendOutcome.resp (⟨404, "err"⟩ : HttpResp String)) = none := by
  decide

/-- Claim C3, amended: in `CchubApiBaseClient._make_request` a response is
returned unchanged whatever its status (no exception reaches the caller); in
`CchubApiClient._make_request` a 4xx/5xx status is converted to the `None`
sentinel by the caught `raise_for_status()` call, while other statuses yield
the parsed body; transport failures yield `None` in both classes. -/
theorem c3_status_passthrough {β : Type} (r : HttpResp β) :
    base_make_request (SendOutcome.resp r) = some r ∧
    (400 ≤ r.status → r.status < 600 → client_make_request (SendOutcome.resp r) = none) ∧
    (r.status < 400 ∨ 600 ≤ r.status → client_make_request (SendOutcome.resp r) = some r.body) ∧
    base_make_request (SendOutcome.raised : SendOutcome β) = none ∧
    client_make_request (SendOutcome.raised : SendOutcome β) = none := by
  refine ⟨rfl, ?_, ?_, rfl, rfl⟩
  · intro h1 h2
    simp only [client_make_request]
    rw [if_pos ⟨h1, h2⟩]
  · intro h
    have hn : ¬(400 ≤ r.status ∧ r.status < 600) := by omega
    simp only [client_make_request]
    rw [if_neg hn]

/-- Witness for C3: a 404 is swallowed into the sentinel by the derived
client while the base client hands back a 500 response unchanged. -/
theorem c3_status_passthrough_w :
    client_make_request (SendOutcome.resp (⟨404, "e"⟩ : HttpResp String)) = none ∧
    base_make_request (SendOutcome.resp (⟨500, "e"⟩ : HttpResp String)) = some ⟨500, "e"⟩ :=
  ⟨(c3_status_passthrough (⟨404, "e"⟩ : HttpResp String)).2.1 (by decide) (by decide),
   (c3_status_passthrough (⟨500, "e"⟩ : HttpResp String)).1⟩

/-- Claim C5, counterexample: invoked with the id `""` the dispatch builds the
collection path, not the single-record path `/{model}/{id}.json` — the
`if uid:` truthiness test routes every falsy id to the collection endpoint. -/
theorem c5_empty_id_collection_path :
    model_endpoint "/api/v6" "accounts" [""] = "/api/v6/accounts.json" ∧
    model_endpoint "/api/v6" "accounts" [""] ≠ "/api/v6/accounts/.json" := by
  constructor
  · rfl
  · decide

/-- Claim C5, amended: for every model in the catalog, the dispatch invoked
with a non-empty id builds `/{version_url}/{model}/{id}.json`, and invoked
without an id (or with the falsy id `""`) builds
`/{version_url}/{model}.json`. -/
theorem c5_endpoint_paths (versionUrl model uid : String) (_hm : model ∈ models)
    (h : uid ≠ "") :
    model_endpoint versionUrl model [uid] = versionUrl ++ "/" ++ model ++ "/" ++ uid ++ ".json" ∧
    model_endpoint versionUrl model [] = versionUrl ++ "/" ++ model ++ ".json" ∧
    model_endpoint versionUrl model [""] = versionUrl ++ "/" ++ model ++ ".json" := by
  refine ⟨?_, rfl, rfl⟩
  simp [model_endpoint, h]

/-- Witness for C5: the two endpoint shapes at a concrete model and id. -/
theorem c5_endpoint_paths_w :
    model_endpoint "/api/v6" "contacts" ["name_42"] = "/api/v6/contacts/name_42.json" ∧
    model_endpoint "/api/v6" "contacts" [] = "/api/v6/contacts.json" ∧
    model_endpoint "/api/v6" "contacts" [""] = "/api/v6/contacts.json" :=
  c5_endpoint_paths "/api/v6" "contacts" "name_42" (by decide) (by decide)

/-- Claim C8, counterexample: with the `simulate` flag the dispatch does not
fail on an unknown verb — it silently issues a GET request carrying
`_method=PATCH`. -/
theorem c8_simulate_issues_request :
    model_func "/api/v6" "accounts" "patch" [] true (some []) =
      DispatchOutcome.issued "GET" "/api/v6/accounts.json" (some [("_method", Val.str "PATCH")]) ∧
    model_func "/api/v6" "accounts" "patch" [] true (some []) ≠
      DispatchOutcome.keyError "patch" := by
  constructor
  · decide
  · decide

/-- Claim C8, amended: for every model in the catalog and every verb outside
{get, post, put, delete}, invoking the dispatch without the `simulate` flag
raises `KeyError(verb)` before any request is issued; with `simulate=True`
the dispatch instead issues a GET carrying `_method=<VERB>` even for unknown
verbs. -/
theorem c8_unknown_verb_keyerror (versionUrl model verb : String) (args : List String)
    (params : Option Params) (_hm : model ∈ models)
    (h1 : verb ≠ "get") (h2 : verb ≠ "post") (h3 : verb ≠ "put") (h4 : verb ≠ "delete") :
    model_func versionUrl model verb args false params = DispatchOutcome.keyError verb := by
  simp [model_func, verb_method, h1, h2, h3, h4]

/-- Witness for C8: the unknown verb `patch` raises `KeyError` when
dispatched without `simulate`. -/
theorem c8_unknown_verb_keyerror_w :
    model_func "/api/v6" "accounts" "patch" [] false (some []) =
      DispatchOutcome.keyError "patch" :=
  c8_unknown_verb_keyerror "/api/v6" "accounts" "patch" [] (some []) (by decide)
    (by decide) (by decide) (by decide) (by decide)

/-- Claim C1, counterexample: with the mocked getter of the `total=250`
scenario the aggregator issues four page requests, not three — after the
skip=200 page the loop condition `250 > 200` still holds, so a fourth request
at skip=300 goes out before `250 > 300` stops the loop. -/
theorem c1_page_requests_count :
    (resultReqs (get_all "tok" "accounts" oracle250 none 10)).length = 4 := by
  decide

set_option maxRecDepth 4000 in
/-- Claim C1, amended: with a single-page getter that reports `total=250` on
every page and serves 100/100/50/0 records at skips 0/100/200/300 (all status
200), the aggregator issues exactly four page requests (skips 0, 100, 200 and
300, each with `take=100`), stops after the skip=300 page because `250 > 300`
is false, and returns the 250 records concatenated in page order with
`total = 250`. -/
theorem c1_total250_four_pages :
    get_all "tok" "accounts" oracle250 none 10 =
      GetAllResult.ok ⟨List.range 250, 250, [0, 0, 0, 0], [200, 200, 200, 200]⟩ none
        [[("skip", Val.int 0), ("take", Val.int 100), ("accessToken", Val.str "tok")],
         [("skip", Val.int 100), ("take", Val.int 100), ("accessToken", Val.str "tok")],
         [("skip", Val.int 200), ("take", Val.int 100), ("accessToken", Val.str "tok")],
         [("skip", Val.int 300), ("take", Val.int 100), ("accessToken", Val.str "tok")]] := by
  decide

/-- Claim C2, counterexample: when the first page's response is the
"no response" sentinel (`None`), `get_all` does not return the accumulated
aggregate — reading `response.status_code` off `None` raises an
`AttributeError` (modelled by `attrError`), so an error does reach the
caller. -/
theorem c2_sentinel_raises :
    get_all "t" "accounts" oracleDown (some []) 3 =
      GetAllResult.attrError
        [[("skip", Val.int 0), ("take", Val.int 100), ("accessToken", Val.str "t")]] := by
  decide

/-- A singleton request tail satisfies the per-index request property. -/
theorem reqParams_single_lookup (ps : Params) (token : String) (p i : Nat) (q : Params)
    (hq : ([reqParams ps token p] : List Params)[i]? = some q) :
    getParam q "take" = some (Val.int 100) ∧
    getParam q "skip" = some (Val.int ((p + 100 * i : Nat) : Int)) ∧
    getParam q "accessToken" = some (Val.str token) := by
  match i with
  | 0 =>
    simp only [List.getElem?_cons_zero, Option.some.injEq] at hq
    subst hq
    refine ⟨getParam_reqParams_take .., ?_, getParam_reqParams_token ..⟩
    simpa using getParam_reqParams_skip ps token p
  | i + 1 => simp at hq

/-- Any run of the paging loop appends its page requests after `reqs`; the
i-th new request carries `take = 100`, `skip` equal to the cursor position
`p + 100 * i` of its iteration, and the access token; at least one request
goes out whenever there is fuel. -/
theorem getAllLoop_reqs_spec {ρ ε : Type} (token : String) (oracle : Nat → Option (PageResp ρ ε)) :
    ∀ (fuel p : Nat) (kw : Option Params) (agg : Agg ρ ε) (reqs : List Params),
      ∃ tail,
        resultReqs (getAllLoop token oracle fuel p kw agg reqs) = reqs ++ tail ∧
        (0 < fuel → 0 < tail.length) ∧
        ∀ i q, tail[i]? = some q →
          getParam q "take" = some (Val.int 100) ∧
          getParam q "skip" = some (Val.int ((p + 100 * i : Nat) : Int)) ∧
          getParam q "accessToken" = some (Val.str token) := by
  intro fuel
  induction fuel with
  | zero =>
    intro p kw agg reqs
    refine ⟨[], by simp [getAllLoop, resultReqs], by omega, by simp⟩
  | succ f ih =>
    intro p kw agg reqs
    cases horacle : oracle p with
    | none =>
      refine ⟨[reqParams (stepBase kw) token p], ?_, by simp, ?_⟩
      · simp [getAllLoop, horacle, resultReqs]
      · intro i q hq
        exact reqParams_single_lookup _ token p i q hq
    | some resp =>
      by_cases hst : resp.status ≠ 200
      · refine ⟨[reqParams (stepBase kw) token p], ?_, by simp, ?_⟩
        · simp [getAllLoop, horacle, hst, resultReqs]
        · intro i q hq
          exact reqParams_single_lookup _ token p i q hq
      · by_cases htot : resp.body.total > (p : Int)
        · obtain ⟨tail, heq, -, hidx⟩ := ih (p + 100) (stepKw token p kw) (pageStep agg p resp)
            (reqs ++ [reqParams (stepBase kw) token p])
          refine ⟨reqParams (stepBase kw) token p :: tail, ?_, by simp, ?_⟩
          · rw [getAllLoop, horacle]
            dsimp only
            rw [if_neg hst, if_pos htot]
            rw [heq]
            simp
          · intro i q hq
            match i with
            | 0 =>
              simp only [List.getElem?_cons_zero, Option.some.injEq] at hq
              subst hq
              refine ⟨getParam_reqParams_take .., ?_, getParam_reqParams_token ..⟩
              simpa using getParam_reqParams_skip _ token p
            | i + 1 =>
              simp only [List.getElem?_cons_succ] at hq
              obtain ⟨h1, h2, h3⟩ := hidx i q hq
              refine ⟨h1, ?_, h3⟩
              rw [show p + 100 * (i + 1) = p + 100 + 100 * i from by ring]
              exact h2
        · refine ⟨[reqParams (stepBase kw) token p], ?_, by simp, ?_⟩
          · rw [getAllLoop, horacle]
            dsimp only
            rw [if_neg hst, if_neg htot]
            simp [resultReqs]
          · intro i q hq
            exact reqParams_single_lookup _ token p i q hq

/-- Unpack a positive continuation check. -/
theorem goodContB_elim {ρ ε : Type} {oracle : Nat → Option (PageResp ρ ε)} {p : Nat}
    (h : goodContB oracle p = true) :
    ∃ resp, oracle p = some resp ∧ resp.status = 200 ∧ (p : Int) < resp.body.total := by
  unfold goodContB at h
  cases horacle : oracle p with
  | none => rw [horacle] at h; simp at h
  | some resp =>
    rw [horacle] at h
    simp only [Bool.and_eq_true, beq_iff_eq, decide_eq_true_eq] at h
    exact ⟨resp, rfl, h.1, h.2⟩

/-- After `m` pages that all pass the continuation check, the paging loop sits
at offset `p + 100 * m` with the accumulator, the caller's dict and the
request trace advanced accordingly. -/
theorem getAllLoop_advance {ρ ε : Type} (token : String) (oracle : Nat → Option (PageResp ρ ε)) :
    ∀ (m fuel p : Nat) (kw : Option Params) (agg : Agg ρ ε) (reqs : List Params),
      (∀ i, i < m → goodContB oracle (p + 100 * i) = true) →
      getAllLoop token oracle (m + fuel) p kw agg reqs =
        getAllLoop token oracle fuel (p + 100 * m) (kwAfter token p m kw)
          (aggAfter oracle p m agg) (reqs ++ reqsAfter token p m kw) := by
  intro m
  induction m with
  | zero =>
    intro fuel p kw agg reqs _
    simp [kwAfter, aggAfter, reqsAfter]
  | succ m ih =>
    intro fuel p kw agg reqs hgood
    obtain ⟨resp, horacle, hst, htot⟩ := goodContB_elim (by simpa using hgood 0 (Nat.succ_pos m))
    have hfuel : m + 1 + fuel = (m + fuel) + 1 := by omega
    rw [hfuel, getAllLoop, horacle]
    dsimp only
    rw [if_neg (by simp [hst]), if_pos htot]
    have hgood' : ∀ i, i < m → goodContB oracle ((p + 100) + 100 * i) = true := by
      intro i hi
      have h := hgood (i + 1) (by omega)
      have e : p + 100 * (i + 1) = p + 100 + 100 * i := by ring
      rwa [e] at h
    rw [ih fuel (p + 100) (stepKw token p kw) (pageStep agg p resp)
      (reqs ++ [reqParams (stepBase kw) token p]) hgood']
    rw [show p + 100 * (m + 1) = p + 100 + 100 * m from by ring]
    simp only [kwAfter, reqsAfter, aggAfter, horacle]
    simp [List.append_assoc]

/-- Pages processed at a positive offset never touch the recorded total. -/
theorem aggAfter_total_of_pos {ρ ε : Type} (oracle : Nat → Option (PageResp ρ ε)) :
    ∀ (m p : Nat) (agg : Agg ρ ε), 0 < p → (aggAfter oracle p m agg).total = agg.total := by
  intro m
  induction m with
  | zero => intro p agg _; simp [aggAfter]
  | succ m ih =>
    intro p agg hp
    cases horacle : oracle p with
    | none =>
      simp only [aggAfter, horacle]
      exact ih (p + 100) agg (by omega)
    | some resp =>
      simp only [aggAfter, horacle]
      rw [ih (p + 100) _ (by omega)]
      simp [pageStep, Nat.pos_iff_ne_zero.mp hp]

/-- Once the first page (offset 0) is processed, the recorded total is the
first page's reported total, whatever happens later. -/
theorem aggAfter_total_first {ρ ε : Type} (oracle : Nat → Option (PageResp ρ ε))
    (r0 : PageResp ρ ε) (h0 : oracle 0 = some r0) :
    ∀ (m : Nat) (agg : Agg ρ ε), 0 < m → (aggAfter oracle 0 m agg).total = r0.body.total := by
  intro m agg hm
  match m, hm with
  | m + 1, _ =>
    simp only [aggAfter, h0]
    rw [aggAfter_total_of_pos oracle m 100 _ (by omega)]
    simp [pageStep]

/-- Each successfully processed page contributes exactly one status code and
one error entry. -/
theorem aggAfter_lens {ρ ε : Type} (oracle : Nat → Option (PageResp ρ ε)) :
    ∀ (m p : Nat) (agg : Agg ρ ε),
      (∀ i, i < m → goodContB oracle (p + 100 * i) = true) →
      (aggAfter oracle p m agg).statusCodes.length = agg.statusCodes.length + m ∧
      (aggAfter oracle p m agg).errors.length = agg.errors.length + m := by
  intro m
  induction m with
  | zero => intro p agg _; simp [aggAfter]
  | succ m ih =>
    intro p agg hgood
    obtain ⟨resp, horacle, -, -⟩ := goodContB_elim (by simpa using hgood 0 (Nat.succ_pos m))
    simp only [aggAfter, horacle]
    have hgood' : ∀ i, i < m → goodContB oracle ((p + 100) + 100 * i) = true := by
      intro i hi
      have h := hgood (i + 1) (by omega)
      have e : p + 100 * (i + 1) = p + 100 + 100 * i := by ring
      rwa [e] at h
    obtain ⟨h1, h2⟩ := ih (p + 100) (pageStep agg p resp) hgood'
    constructor
    · rw [h1]; simp [pageStep]; omega
    · rw [h2]; simp [pageStep]; omega

/-- `m` iterations issue exactly `m` requests. -/
theorem reqsAfter_length (token : String) :
    ∀ (m p : Nat) (kw : Option Params), (reqsAfter token p m kw).length = m := by
  intro m
  induction m with
  | zero => intro p kw; simp [reqsAfter]
  | succ m ih => intro p kw; simp [reqsAfter, ih]

/-- When a run that was given the caller's dict returns normally, the dict the
caller is left holding is the snapshot of the last request issued: `take` is
100, the access token is set, and `skip` is the last cursor position. -/
theorem getAllLoop_final_kw {ρ ε : Type} (token : String) (oracle : Nat → Option (PageResp ρ ε)) :
    ∀ (fuel p : Nat) (P : Params) (agg : Agg ρ ε) (reqs : List Params)
      (agg' : Agg ρ ε) (kw' : Option Params) (reqs' : List Params),
      getAllLoop token oracle fuel p (some P) agg reqs = GetAllResult.ok agg' kw' reqs' →
      reqs.length < reqs'.length ∧
      ∃ Q, kw' = some Q ∧
        getParam Q "take" = some (Val.int 100) ∧
        getParam Q "accessToken" = some (Val.str token) ∧
        getParam Q "skip" =
          some (Val.int ((p + 100 * (reqs'.length - reqs.length - 1) : Nat) : Int)) := by
  intro fuel
  induction fuel with
  | zero =>
    intro p P agg reqs agg' kw' reqs' h
    simp [getAllLoop] at h
  | succ f ih =>
    intro p P agg reqs agg' kw' reqs' h
    rw [getAllLoop] at h
    cases horacle : oracle p with
    | none => rw [horacle] at h; simp at h
    | some resp =>
      rw [horacle] at h
      dsimp only at h
      by_cases hst : resp.status ≠ 200
      · rw [if_pos hst] at h
        simp only [GetAllResult.ok.injEq] at h
        obtain ⟨-, hkw, hreqs⟩ := h
        subst hreqs
        refine ⟨by simp, reqParams P token p, ?_, getParam_reqParams_take ..,
          getParam_reqParams_token .., ?_⟩
        · rw [← hkw]; rfl
        · rw [show p + 100 * ((reqs ++ [reqParams (stepBase (some P)) token p]).length
            - reqs.length - 1) = p from by simp]
          exact getParam_reqParams_skip ..
      · rw [if_neg hst] at h
        by_cases htot : resp.body.total > (p : Int)
        · rw [if_pos htot] at h
          simp only [stepKw] at h
          obtain ⟨hlen, Q, hQ, h1, h2, h3⟩ :=
            ih (p + 100) (reqParams P token p) (pageStep agg p resp)
              (reqs ++ [reqParams (stepBase (some P)) token p]) agg' kw' reqs' h
          simp only [List.length_append, List.length_singleton] at hlen
          refine ⟨by omega, Q, hQ, h1, h2, ?_⟩
          rw [show p + 100 * (reqs'.length - reqs.length - 1) =
            p + 100 + 100 * (reqs'.length - (reqs.length + 1) - 1) from by omega]
          simpa using h3
        · rw [if_neg htot] at h
          simp only [GetAllResult.ok.injEq] at h
          obtain ⟨-, hkw, hreqs⟩ := h
          subst hreqs
          refine ⟨by simp, reqParams P token p, ?_, getParam_reqParams_take ..,
            getParam_reqParams_token .., ?_⟩
          · rw [← hkw]; rfl
          · rw [show p + 100 * ((reqs ++ [reqParams (stepBase (some P)) token p]).length
              - reqs.length - 1) = p from by simp]
            exact getParam_reqParams_skip ..

/-- Claim C2, amended: for every page sequence, if pages 1..k all pass the
continuation check and page k+1 comes back with a non-200 status code, then
`get_all` stops the loop immediately and returns the aggregate accumulated
from the first k pages — exactly k status-code entries, k error entries, only
those pages' records, and `total` as recorded from page 1 (0 when the very
first page fails) — without raising; the "no response" sentinel case instead
raises an `AttributeError` (see the counterexample). -/
theorem c2_non200_returns_partial {ρ ε : Type} (token model : String)
    (oracle : Nat → Option (PageResp ρ ε)) (kw : Option Params) (k fuel : Nat)
    (r : PageResp ρ ε) (hm : model ∈ models)
    (hgood : ∀ i, i < k → goodContB oracle (100 * i) = true)
    (hk : oracle (100 * k) = some r) (hst : r.status ≠ 200) :
    ∃ kwf reqsf,
      get_all token model oracle kw (k + (fuel + 1)) =
        GetAllResult.ok (aggAfter oracle 0 k ⟨[], 0, [], []⟩) kwf reqsf ∧
      reqsf.length = k + 1 ∧
      (aggAfter oracle 0 k (⟨[], 0, [], []⟩ : Agg ρ ε)).statusCodes.length = k ∧
      (aggAfter oracle 0 k (⟨[], 0, [], []⟩ : Agg ρ ε)).errors.length = k ∧
      (aggAfter oracle 0 k (⟨[], 0, [], []⟩ : Agg ρ ε)).total =
        (if k = 0 then 0 else firstReportedTotal oracle) := by
  have hgood0 : ∀ i, i < k → goodContB oracle (0 + 100 * i) = true := by simpa using hgood
  rw [get_all, if_pos hm,
    getAllLoop_advance token oracle k (fuel + 1) 0 kw ⟨[], 0, [], []⟩ [] hgood0]
  rw [getAllLoop]
  rw [show (0 + 100 * k) = 100 * k from by omega, hk]
  dsimp only
  rw [if_pos hst]
  refine ⟨_, _, rfl, ?_, ?_, ?_, ?_⟩
  · simp [reqsAfter_length]
  · simpa using (aggAfter_lens oracle k 0 ⟨[], 0, [], []⟩ hgood0).1
  · simpa using (aggAfter_lens oracle k 0 ⟨[], 0, [], []⟩ hgood0).2
  · match k with
    | 0 => simp [aggAfter]
    | j + 1 =>
      rw [if_neg (by omega)]
      obtain ⟨r0, h00, -, -⟩ := goodContB_elim (by simpa using hgood0 0 (by omega))
      rw [aggAfter_total_first oracle r0 (by simpa using h00) (j + 1) _ (by omega)]
      simp [firstReportedTotal, show oracle 0 = some r0 from by simpa using h00]

/-- Witness for C2: the first page of `oracleErr2` is good, the second has
status 500, and `get_all` returns exactly the first page's partial
aggregate. -/
theorem c2_non200_returns_partial_w :
    ("accounts" ∈ models ∧
      (∀ i, i < 1 → goodContB oracleErr2 (100 * i) = true) ∧
      oracleErr2 (100 * 1) = some ⟨500, ⟨0, [], 0⟩⟩ ∧
      (⟨500, ⟨0, [], 0⟩⟩ : PageResp Nat Nat).status ≠ 200) ∧
    (∃ kwf reqsf,
      get_all "t" "accounts" oracleErr2 (some []) (1 + (0 + 1)) =
        GetAllResult.ok (aggAfter oracleErr2 0 1 ⟨[], 0, [], []⟩) kwf reqsf ∧
      reqsf.length = 1 + 1 ∧
      (aggAfter oracleErr2 0 1 (⟨[], 0, [], []⟩ : Agg Nat Nat)).statusCodes.length = 1 ∧
      (aggAfter oracleErr2 0 1 (⟨[], 0, [], []⟩ : Agg Nat Nat)).errors.length = 1 ∧
      (aggAfter oracleErr2 0 1 (⟨[], 0, [], []⟩ : Agg Nat Nat)).total =
        (if 1 = 0 then 0 else firstReportedTotal oracleErr2)) :=
  ⟨⟨by decide, by decide, by decide, by decide⟩,
   c2_non200_returns_partial "t" "accounts" oracleErr2 (some []) 1 0 ⟨500, ⟨0, [], 0⟩⟩
     (by decide) (by decide) (by decide) (by decide)⟩

/-- Claim C6: every single-page request issued by the aggregator — whatever
the caller put into `params`, including a `take` of its own — carries
`take = 100` and `skip` equal to the cursor position `100 * i` of its
iteration. -/
theorem c6_take_and_skip_fixed {ρ ε : Type} (token model : String)
    (oracle : Nat → Option (PageResp ρ ε)) (kw : Option Params) (fuel i : Nat) (q : Params)
    (hq : (resultReqs (get_all token model oracle kw fuel))[i]? = some q) :
    getParam q "take" = some (Val.int 100) ∧
    getParam q "skip" = some (Val.int ((100 * i : Nat) : Int)) := by
  rw [get_all] at hq
  by_cases hm : model ∈ models
  · rw [if_pos hm] at hq
    obtain ⟨tail, heq, -, hidx⟩ := getAllLoop_reqs_spec token oracle fuel 0 kw ⟨[], 0, [], []⟩ []
    rw [heq] at hq
    simp only [List.nil_append] at hq
    obtain ⟨h1, h2, -⟩ := hidx i q hq
    exact ⟨h1, by simpa using h2⟩
  · rw [if_neg hm] at hq
    simp [resultReqs] at hq

/-- Witness for C6: on a run whose caller set `take = 5`, the first issued
request still carries `take = 100` and `skip = 0`. -/
theorem c6_take_and_skip_fixed_w :
    ((resultReqs (get_all "t" "accounts" oracleTotals (some [("take", Val.int 5)]) 5))[0]? =
      some [("take", Val.int 100), ("skip", Val.int 0), ("accessToken", Val.str "t")]) ∧
    (getParam [("take", Val.int 100), ("skip", Val.int 0), ("accessToken", Val.str "t")]
        "take" = some (Val.int 100) ∧
      getParam [("take", Val.int 100), ("skip", Val.int 0), ("accessToken", Val.str "t")]
        "skip" = some (Val.int ((100 * 0 : Nat) : Int))) :=
  ⟨by decide,
   c6_take_and_skip_fixed "t" "accounts" oracleTotals (some [("take", Val.int 5)]) 5 0
     [("take", Val.int 100), ("skip", Val.int 0), ("accessToken", Val.str "t")] (by decide)⟩

/-- Claim C7: when the first page reports status 200, `total = 0` and an empty
record list, the aggregate fetch performs exactly one page request and
returns empty data with `total = 0`. -/
theorem c7_total_zero_single_page {ρ ε : Type} (token model : String)
    (oracle : Nat → Option (PageResp ρ ε)) (kw : Option Params) (fuel : Nat)
    (r0 : PageResp ρ ε) (hm : model ∈ models) (h0 : oracle 0 = some r0)
    (hst : r0.status = 200) (htot : r0.body.total = 0) (hdata : r0.body.data = []) :
    ∃ kwf reqsf,
      get_all token model oracle kw (fuel + 1) =
        GetAllResult.ok ⟨[], 0, [r0.body.error], [200]⟩ kwf reqsf ∧
      reqsf.length = 1 := by
  rw [get_all, if_pos hm, getAllLoop, h0]
  dsimp only
  rw [if_neg (by simp [hst]), if_neg (by simp [htot])]
  refine ⟨stepKw token 0 kw, [] ++ [reqParams (stepBase kw) token 0], ?_, by simp⟩
  simp [pageStep, hdata, htot, hst]

/-- Witness for C7: the empty-collection getter yields one page request and
an empty aggregate. -/
theorem c7_total_zero_single_page_w :
    ("accounts" ∈ models ∧ oracleEmpty 0 = some ⟨200, ⟨3, [], 0⟩⟩) ∧
    (∃ kwf reqsf,
      get_all "t" "accounts" oracleEmpty none (0 + 1) =
        GetAllResult.ok ⟨[], 0, [3], [200]⟩ kwf reqsf ∧
      reqsf.length = 1) :=
  ⟨⟨by decide, by decide⟩,
   c7_total_zero_single_page "t" "accounts" oracleEmpty none 0 ⟨200, ⟨3, [], 0⟩⟩
     (by decide) (by decide) (by decide) (by decide) (by decide)⟩

/-- Claim C9: the decision to fetch another page is made against the total
reported by the most recently fetched page, not the page-1 total, while the
returned aggregate total stays the page-1 value: after k continuing pages,
if page k+1 (status 200) reports a total at most `100 * k` the loop stops
with exactly k+1 requests and the aggregate total is still the first page's;
if it reports a total above `100 * k` a further request goes out at skip
`100 * (k+1)`. -/
theorem c9_current_total_drives_loop {ρ ε : Type} (token model : String)
    (oracle : Nat → Option (PageResp ρ ε)) (kw : Option Params) (k fuel : Nat)
    (r : PageResp ρ ε) (hm : model ∈ models)
    (hgood : ∀ i, i < k → goodContB oracle (100 * i) = true)
    (hk : oracle (100 * k) = some r) (hst : r.status = 200) :
    (r.body.total ≤ ((100 * k : Nat) : Int) →
      ∃ kwf reqsf,
        get_all token model oracle kw (k + (fuel + 1)) =
          GetAllResult.ok (pageStep (aggAfter oracle 0 k ⟨[], 0, [], []⟩) (100 * k) r)
            kwf reqsf ∧
        reqsf.length = k + 1 ∧
        (pageStep (aggAfter oracle 0 k (⟨[], 0, [], []⟩ : Agg ρ ε)) (100 * k) r).total =
          firstReportedTotal oracle) ∧
    (((100 * k : Nat) : Int) < r.body.total →
      ∃ q, (resultReqs (get_all token model oracle kw ((k + 1) + (fuel + 1))))[k + 1]? =
          some q ∧
        getParam q "skip" = some (Val.int ((100 * (k + 1) : Nat) : Int))) := by
  have hgood0 : ∀ i, i < k → goodContB oracle (0 + 100 * i) = true := by simpa using hgood
  constructor
  · intro htot
    rw [get_all, if_pos hm,
      getAllLoop_advance token oracle k (fuel + 1) 0 kw ⟨[], 0, [], []⟩ [] hgood0]
    rw [getAllLoop]
    rw [show (0 + 100 * k) = 100 * k from by omega, hk]
    dsimp only
    rw [if_neg (by simp [hst]), if_neg (not_lt.mpr htot)]
    refine ⟨_, _, rfl, by simp [reqsAfter_length], ?_⟩
    match k with
    | 0 =>
      simp [pageStep, aggAfter, firstReportedTotal,
        show oracle 0 = some r from by simpa using hk]
    | j + 1 =>
      obtain ⟨r0, h00, -, -⟩ := goodContB_elim (by simpa using hgood0 0 (by omega))
      have h0 : oracle 0 = some r0 := by simpa using h00
      simp only [pageStep]
      rw [if_neg (by omega)]
      rw [aggAfter_total_first oracle r0 h0 (j + 1) _ (by omega)]
      simp [firstReportedTotal, h0]
  · intro htot
    have hgood1 : ∀ i, i < k + 1 → goodContB oracle (0 + 100 * i) = true := by
      intro i hi
      rcases Nat.lt_succ_iff_lt_or_eq.mp hi with h | h
      · exact hgood0 i h
      · subst h
        simp only [Nat.zero_add, goodContB, hk]
        simp only [hst, beq_self_eq_true, Bool.true_and, decide_eq_true_eq]
        exact_mod_cast htot
    rw [get_all, if_pos hm,
      getAllLoop_advance token oracle (k + 1) (fuel + 1) 0 kw ⟨[], 0, [], []⟩ [] hgood1]
    obtain ⟨tail, heq, hne, hidx⟩ := getAllLoop_reqs_spec token oracle (fuel + 1)
      (0 + 100 * (k + 1)) (kwAfter token 0 (k + 1) kw)
      (aggAfter oracle 0 (k + 1) ⟨[], 0, [], []⟩) ([] ++ reqsAfter token 0 (k + 1) kw)
    rw [heq]
    have hlen : ([] ++ reqsAfter token 0 (k + 1) kw).length = k + 1 := by
      simp [reqsAfter_length]
    obtain ⟨q, t, rfl⟩ : ∃ q t, tail = q :: t := by
      have hpos := hne (by omega)
      match tail with
      | [] => simp at hpos
      | q :: t => exact ⟨q, t, rfl⟩
    refine ⟨q, ?_, ?_⟩
    · rw [List.getElem?_append_right (by omega)]
      simp [reqsAfter_length]
    · have hq := (hidx 0 q (by simp)).2.1
      simpa using hq

/-- Witness for C9: with `oracleTotals` (page 1 reports 150, page 2 reports
50), the second page's total 50 stops the loop after two requests while the
aggregate total stays 150; and at the first page the total 150 makes a
second request go out at skip 100. -/
theorem c9_current_total_drives_loop_w :
    ("accounts" ∈ models ∧
      oracleTotals (100 * 1) = some ⟨200, ⟨0, [6], 50⟩⟩ ∧
      oracleTotals (100 * 0) = some ⟨200, ⟨0, [5], 150⟩⟩) ∧
    (∃ kwf reqsf,
      get_all "t" "accounts" oracleTotals none (1 + (0 + 1)) =
        GetAllResult.ok
          (pageStep (aggAfter oracleTotals 0 1 ⟨[], 0, [], []⟩) (100 * 1)
            ⟨200, ⟨0, [6], 50⟩⟩) kwf reqsf ∧
      reqsf.length = 1 + 1 ∧
      (pageStep (aggAfter oracleTotals 0 1 (⟨[], 0, [], []⟩ : Agg Nat Nat)) (100 * 1)
        ⟨200, ⟨0, [6], 50⟩⟩).total = firstReportedTotal oracleTotals) ∧
    (∃ q, (resultReqs (get_all "t" "accounts" oracleTotals none ((0 + 1) + (0 + 1))))[0 + 1]? =
        some q ∧
      getParam q "skip" = some (Val.int ((100 * (0 + 1) : Nat) : Int))) :=
  ⟨⟨by decide, by decide, by decide⟩,
   (c9_current_total_drives_loop "t" "accounts" oracleTotals none 1 0 ⟨200, ⟨0, [6], 50⟩⟩
     (by decide) (by decide) (by decide) (by decide)).1 (by decide),
   (c9_current_total_drives_loop "t" "accounts" oracleTotals none 0 0 ⟨200, ⟨0, [5], 150⟩⟩
     (by decide) (by decide) (by decide) (by decide)).2 (by decide)⟩

/-- Claim C10: `get_all` mutates the caller-supplied `params` mapping in
place — whenever a call made with a caller dict returns normally after `n`
page requests, the caller's own mapping afterwards holds `take = 100`,
`skip = 100 * (n - 1)` (the last cursor position used) and the client's
access token. -/
theorem c10_params_mutated {ρ ε : Type} (token model : String)
    (oracle : Nat → Option (PageResp ρ ε)) (P : Params) (fuel : Nat)
    (agg' : Agg ρ ε) (kw' : Option Params) (reqs' : List Params)
    (h : get_all token model oracle (some P) fuel = GetAllResult.ok agg' kw' reqs') :
    0 < reqs'.length ∧
    ∃ Q, kw' = some Q ∧
      getParam Q "take" = some (Val.int 100) ∧
      getParam Q "accessToken" = some (Val.str token) ∧
      getParam Q "skip" = some (Val.int ((100 * (reqs'.length - 1) : Nat) : Int)) := by
  rw [get_all] at h
  by_cases hm : model ∈ models
  · rw [if_pos hm] at h
    obtain ⟨hlen, Q, hQ, h1, h2, h3⟩ :=
      getAllLoop_final_kw token oracle fuel 0 P ⟨[], 0, [], []⟩ [] agg' kw' reqs' h
    simp only [List.length_nil] at hlen h3
    refine ⟨by omega, Q, hQ, h1, h2, ?_⟩
    simpa using h3
  · rw [if_neg hm] at h
    simp at h

/-- Witness for C10: a caller dict holding `take = 5` ends up holding
`take = 100`, `skip = 100` (the second and last cursor position) and the
access token after a two-page run. -/
theorem c10_params_mutated_w :
    (get_all "t" "accounts" oracleTotals (some [("take", Val.int 5)]) 10 =
      GetAllResult.ok ⟨[5, 6], 150, [0, 0], [200, 200]⟩
        (some [("take", Val.int 100), ("skip", Val.int 100), ("accessToken", Val.str "t")])
        [[("take", Val.int 100), ("skip", Val.int 0), ("accessToken", Val.str "t")],
         [("take", Val.int 100), ("skip", Val.int 100), ("accessToken", Val.str "t")]]) ∧
    (0 < ([[("take", Val.int 100), ("skip", Val.int 0), ("accessToken", Val.str "t")],
          [("take", Val.int 100), ("skip", Val.int 100), ("accessToken", Val.str "t")]] :
            List Params).length ∧
      ∃ Q, (some [("take", Val.int 100), ("skip", Val.int 100), ("accessToken", Val.str "t")] :
              Option Params) = some Q ∧
        getParam Q "take" = some (Val.int 100) ∧
        getParam Q "accessToken" = some (Val.str "t") ∧
        getParam Q "skip" =
          some (Val.int ((100 * (([[("take", Val.int 100), ("skip", Val.int 0),
            ("accessToken", Val.str "t")], [("take", Val.int 100), ("skip", Val.int 100),
            ("accessToken", Val.str "t")]] : List Params).length - 1) : Nat) : Int))) :=
  ⟨by decide,
   c10_params_mutated "t" "accounts" oracleTotals [("take", Val.int 5)] 10
     ⟨[5, 6], 150, [0, 0], [200, 200]⟩
     (some [("take", Val.int 100), ("skip", Val.int 100), ("accessToken", Val.str "t")])
     [[("take", Val.int 100), ("skip", Val.int 0), ("accessToken", Val.str "t")],
      [("take", Val.int 100), ("skip", Val.int 100), ("accessToken", Val.str "t")]]
     (by decide)⟩

end Cchub
